import Mathlib

/-!
Verification of the scaling decision engine of the Dynamic-Infrastructure-Scaling
repository against its natural-language specification.

The embedding translates the JavaScript sources into Lean:

* `scripts/schedule-scaling.js` — the scaling decision engine
  (`checkAndScale`, `isInCooldown`, `executeScalingOperation`, `calculateTrend`,
  the custom-template branch of `constructOllamaPrompt`);
* `src/services/ollamaService.js` — the recommendation parser and the
  primary/fallback model policy (`validateRecommendation`, the response
  post-processing pipeline of `getScalingRecommendation`, and its
  fallback recursion).

JavaScript numbers are modelled as exact rationals (`ℚ`) and machine integers
as `ℤ`; strings are modelled as `List Char`.  External collaborators (Azure
SDK, file system, the Ollama HTTP API) are modelled as explicit cycle inputs,
and the side effects performed by a cycle are recorded in an effect list so
that "no call was made" is expressible.
-/

/-! ## Basic numeric helpers -/

/-- Model of JavaScript `Math.round` on an exact rational: round half toward
positive infinity, i.e. `⌊x + 1/2⌋`.  Implemented by integer division so that
it evaluates inside the kernel; `jsRound_eq_floor` below proves it equal to
the mathematical floor description. -/
def jsRound (q : ℚ) : ℤ := (2 * q.num + q.den) / (2 * q.den)

/-- Specification-side clamping: force a value into the closed range
`[lo, hi]` (spec §4.4 "Clamping", glossary "Clamping").  The source expresses
the same operation as `Math.max(MIN_INSTANCES, Math.min(MAX_INSTANCES, x))`. -/
def clamp (lo hi t : ℤ) : ℤ := max lo (min hi t)

/-- Model of the JavaScript defaulting expression `confidence || 1.0`
(schedule-scaling.js line 158).  JavaScript `||` replaces every falsy value —
including the number `0` — by the default, and an absent field is `undefined`,
also falsy. -/
def jsOrOne (c : Option ℚ) : ℚ :=
  match c with
  | none => 1
  | some v => if v = 0 then 1 else v

/-! ## Scaling decision engine (scripts/schedule-scaling.js) -/

/-- Engine configuration, from the environment/CLI configuration block of
schedule-scaling.js (lines 34-45). -/
structure EngineConfig where
  minInstances : ℤ
  maxInstances : ℤ
  scalingCooldownMinutes : ℤ
  retryCount : ℕ
  dryRun : Bool
  confidenceThreshold : ℚ

/-- The recommendation object as `checkAndScale` consumes it after the
`typeof recommendation.recommended_instances === 'number'` guard:
a numeric instance count, an optional numeric confidence and an optional
reasoning string. -/
structure OllamaRec where
  recommended_instances : ℚ
  confidence : Option ℚ
  reasoning : Option (List Char)

/-- Outcome of one `beginCreateOrUpdate` + `pollUntilDone` attempt against the
compute backend: either the call throws (`err`), or it completes and reports
the resulting `sku.capacity` (`none` when the result carries no capacity). -/
inductive AttemptOutcome where
  | err : AttemptOutcome
  | ok : Option ℤ → AttemptOutcome

/-- Result of `executeScalingOperation`: whether the operation succeeded, the
value of the module-level `lastScalingOperationTime` afterwards, and the list
of capacity targets sent to the backend (one entry per attempted call). -/
structure ExecOutcome where
  success : Bool
  lastScalingOperationTime : ℤ
  calls : List ℤ
deriving DecidableEq

/-- The retry loop of `executeScalingOperation` (schedule-scaling.js lines
412-449): `for (attempt = 1; attempt <= RETRY_COUNT && !success; attempt++)`.
`k` is the current attempt number and the second argument the number of
remaining attempts.  On a completed call the source sets `success = true` and
`lastScalingOperationTime = Date.now()` in both verification branches — also
when the reported capacity differs from the target ("Consider success even if
verification is ambiguous", line 438). -/
def execAttemptLoop (attempts : ℕ → AttemptOutcome) (execNow last0 target : ℤ) :
    ℕ → ℕ → ExecOutcome
  | _, 0 => ⟨false, last0, []⟩
  | k, r + 1 =>
    match attempts k with
    | AttemptOutcome.ok c =>
      if c = some target then ⟨true, execNow, [target]⟩
      else ⟨true, execNow, [target]⟩
    | AttemptOutcome.err =>
      let o := execAttemptLoop attempts execNow last0 target (k + 1) r
      ⟨o.success, o.lastScalingOperationTime, target :: o.calls⟩

/-- Model of `executeScalingOperation` (schedule-scaling.js lines 394-460).
In dry-run mode the source logs, records a simulated scaling time
(`lastScalingOperationTime = Date.now()`) and returns without touching the
backend; otherwise it enters the retry loop.  When the loop ends without
success the source throws, leaving `lastScalingOperationTime` unchanged
(line 457: "Don't update lastScalingOperationTime on failure"). -/
def executeScalingOperation (dryRun : Bool) (retryCount : ℕ)
    (attempts : ℕ → AttemptOutcome) (execNow last0 target : ℤ) : ExecOutcome :=
  if dryRun then ⟨true, execNow, []⟩
  else execAttemptLoop attempts execNow last0 target 1 retryCount

/-- Model of `isInCooldown` (schedule-scaling.js lines 193-208):
`lastScalingOperationTime === 0` means no previous scaling operation;
otherwise the cycle is in cooldown iff
`Date.now() - lastScalingOperationTime < SCALING_COOLDOWN * 60 * 1000`. -/
def isInCooldown (cooldownMinutes last now : ℤ) : Bool :=
  if last = 0 then false
  else if now - last < cooldownMinutes * 60 * 1000 then true else false

/-- The inputs a single decision cycle reads from the outside world:
the wall clock at the cooldown check, the VMSS capacity reported by Azure
(`none` models a thrown `getCurrentVmssState`), whether a usable metrics
snapshot exists, the recommendation returned by the Ollama service (`none`
models `null` or a non-numeric `recommended_instances`), the per-attempt
backend behaviour and the wall clock at the moment a scaling time is
recorded. -/
structure CycleEnv where
  now : ℤ
  vmssCapacity : Option ℤ
  metricsAvailable : Bool
  recommendation : Option OllamaRec
  attempts : ℕ → AttemptOutcome
  execNow : ℤ

/-- The cross-cycle mutable state of the engine: the two module-level
variables of schedule-scaling.js (lines 48-49). -/
structure EngineState where
  lastScalingOperationTime : ℤ
  isScalingInProgress : Bool
deriving DecidableEq

/-- Terminal outcome of one `checkAndScale` cycle. -/
inductive CycleOutcome where
  | alreadyInProgress : CycleOutcome
  | inCooldown : CycleOutcome
  | vmssError : CycleOutcome
  | noMetrics : CycleOutcome
  | invalidRecommendation : CycleOutcome
  | lowConfidence : CycleOutcome
  | noChangeNeeded : CycleOutcome
  | executed : ℤ → CycleOutcome
  | scalingFailed : CycleOutcome
deriving DecidableEq

/-- Observable side effects of a cycle, in program order: reading the VMSS
state, loading the metrics snapshot, calling the recommender, and sending a
capacity update to the compute backend. -/
inductive CycleEffect where
  | getVmss : CycleEffect
  | loadMetrics : CycleEffect
  | callRecommender : CycleEffect
  | backendUpdate : ℤ → CycleEffect
deriving DecidableEq

/-- Predicate selecting backend mutations among cycle effects. -/
def isBackendUpdate : CycleEffect → Bool
  | CycleEffect.backendUpdate _ => true
  | _ => false

/-- Result of one cycle: outcome, engine state afterwards, effect trace. -/
structure CycleResult where
  outcome : CycleOutcome
  state : EngineState
  effects : List CycleEffect
deriving DecidableEq

/-- Model of `checkAndScale` (schedule-scaling.js lines 117-188), stage by
stage in source order: re-entrancy guard, cooldown check, VMSS state fetch,
metrics load, recommender call, numeric-recommendation guard, confidence gate
(`confidence || 1.0` compared against the threshold), round-and-clamp,
no-op comparison, and execution.  The `finally` block resets
`isScalingInProgress`, so every exit except the re-entrancy early return
leaves the flag `false`. -/
def checkAndScale (cfg : EngineConfig) (env : CycleEnv) (st : EngineState) : CycleResult :=
  if st.isScalingInProgress then ⟨CycleOutcome.alreadyInProgress, st, []⟩
  else if isInCooldown cfg.scalingCooldownMinutes st.lastScalingOperationTime env.now then
    ⟨CycleOutcome.inCooldown, ⟨st.lastScalingOperationTime, false⟩, []⟩
  else
    match env.vmssCapacity with
    | none =>
      ⟨CycleOutcome.vmssError, ⟨st.lastScalingOperationTime, false⟩, [CycleEffect.getVmss]⟩
    | some currentCapacity =>
      if env.metricsAvailable = false then
        ⟨CycleOutcome.noMetrics, ⟨st.lastScalingOperationTime, false⟩,
          [CycleEffect.getVmss, CycleEffect.loadMetrics]⟩
      else
        match env.recommendation with
        | none =>
          ⟨CycleOutcome.invalidRecommendation, ⟨st.lastScalingOperationTime, false⟩,
            [CycleEffect.getVmss, CycleEffect.loadMetrics, CycleEffect.callRecommender]⟩
        | some r =>
          if jsOrOne r.confidence < cfg.confidenceThreshold then
            ⟨CycleOutcome.lowConfidence, ⟨st.lastScalingOperationTime, false⟩,
              [CycleEffect.getVmss, CycleEffect.loadMetrics, CycleEffect.callRecommender]⟩
          else
            let recommendedCapacity :=
              max cfg.minInstances (min cfg.maxInstances (jsRound r.recommended_instances))
            if recommendedCapacity ≠ currentCapacity then
              let ex := executeScalingOperation cfg.dryRun cfg.retryCount env.attempts
                env.execNow st.lastScalingOperationTime recommendedCapacity
              if ex.success then
                ⟨CycleOutcome.executed recommendedCapacity, ⟨ex.lastScalingOperationTime, false⟩,
                  [CycleEffect.getVmss, CycleEffect.loadMetrics, CycleEffect.callRecommender]
                    ++ ex.calls.map CycleEffect.backendUpdate⟩
              else
                ⟨CycleOutcome.scalingFailed, ⟨ex.lastScalingOperationTime, false⟩,
                  [CycleEffect.getVmss, CycleEffect.loadMetrics, CycleEffect.callRecommender]
                    ++ ex.calls.map CycleEffect.backendUpdate⟩
            else
              ⟨CycleOutcome.noChangeNeeded, ⟨st.lastScalingOperationTime, false⟩,
                [CycleEffect.getVmss, CycleEffect.loadMetrics, CycleEffect.callRecommender]⟩

/-! ## Trend computation (scripts/schedule-scaling.js `calculateTrend`) -/

/-- Trend classification returned by `calculateTrend`. -/
inductive Trend where
  | increasing : Trend
  | decreasing : Trend
  | stable : Trend
deriving DecidableEq

/-- Model of `calculateTrend` (schedule-scaling.js lines 230-260) over exact
rationals.  The source's `isNaN` guards cannot fire in ℚ (the averages of
non-empty halves are always finite), and ℚ division is total, so the function
is total; the `firstAvg === 0` branch is taken before the percent-change
division, exactly as in the source. -/
def calculateTrend (values : List ℚ) : Trend :=
  if values.length < 2 then Trend.stable
  else
    let halfIndex := values.length / 2
    if halfIndex = 0 then Trend.stable
    else
      let firstHalf := values.take halfIndex
      let secondHalf := values.drop halfIndex
      let firstAvg := firstHalf.sum / (firstHalf.length : ℚ)
      let secondAvg := secondHalf.sum / (secondHalf.length : ℚ)
      if firstAvg = 0 then
        if 0 < secondAvg then Trend.increasing
        else if secondAvg < 0 then Trend.decreasing
        else Trend.stable
      else
        let trendPercentage := (secondAvg - firstAvg) / |firstAvg| * 100
        if 5 < trendPercentage then Trend.increasing
        else if trendPercentage < -5 then Trend.decreasing
        else Trend.stable

/-! ## Substring matching (shared by the parser pipeline and the prompt
template substitution) -/

/-- The pattern `pat` occurs in `s` starting at index `i`. -/
def matchesAt (pat s : List Char) (i : ℕ) : Prop :=
  (s.drop i).take pat.length = pat

instance matchesAtDec (pat s : List Char) (i : ℕ) : Decidable (matchesAt pat s i) :=
  inferInstanceAs (Decidable ((s.drop i).take pat.length = pat))

/-- Index of the first occurrence of `pat` in `s`, like JavaScript
`String.prototype.indexOf` (`none` for `-1`). -/
def indexOfSub (pat s : List Char) : Option ℕ :=
  (List.range (s.length + 1)).find? (fun i => decide (matchesAt pat s i))

/-- Does `s` contain `pat`, like JavaScript `String.prototype.includes`. -/
def jsIncludes (s pat : List Char) : Bool := (indexOfSub pat s).isSome

/-- Split `s` around the first occurrence of `pat`:
`s = pre ++ pat ++ post`. -/
def splitFirstOcc (pat s : List Char) : Option (List Char × List Char) :=
  match indexOfSub pat s with
  | some i => some (s.take i, s.drop (i + pat.length))
  | none => none

/-- Model of JavaScript `String.prototype.replace` with a *string* pattern:
replace only the first occurrence.  The `$`-escape expansion JavaScript
performs inside the replacement string is not modelled (the replacement is
inserted literally); every occurrence-counting theorem below quantifies over
an arbitrary inserted string, so it holds for the expanded string as well. -/
def jsReplaceFirst (s pat rep : List Char) : List Char :=
  match indexOfSub pat s with
  | none => s
  | some i => s.take i ++ rep ++ s.drop (i + pat.length)

/-- Number of (possibly overlapping) occurrences of `pat` in `s`. -/
def countOcc (pat s : List Char) : ℕ :=
  ((Finset.range (s.length + 1)).filter (fun i => matchesAt pat s i)).card

/-- Does `s` end with `pat`, like JavaScript `String.prototype.endsWith`. -/
def jsEndsWith (s pat : List Char) : Bool := decide (pat <:+ s)

/-! ## JSON values and a model of `JSON.parse`
(src/services/ollamaService.js consumes `JSON.parse` output) -/

/-- JSON values as produced by `JSON.parse`. -/
inductive JsValue where
  | null : JsValue
  | bool : Bool → JsValue
  | num : ℚ → JsValue
  | str : List Char → JsValue
  | arr : List JsValue → JsValue
  | obj : List (List Char × JsValue) → JsValue

/-- JSON token whitespace (RFC 8259): space, tab, line feed, carriage
return. -/
def isJsonWs (c : Char) : Bool :=
  c = ' ' || c = '\t' || c = '\n' || c = '\r'

/-- Whitespace class used to model both JavaScript `String.prototype.trim`
and the `\s` regex class: the JSON whitespace plus form feed and vertical
tab.  (The full JavaScript classes also include rare Unicode spaces, which
never occur in the strings this development evaluates.) -/
def isJsWs (c : Char) : Bool :=
  c = ' ' || c = '\t' || c = '\n' || c = '\r' || c = '\x0b' || c = '\x0c'

/-- Value of a hexadecimal digit. -/
def hexVal (c : Char) : Option ℕ :=
  if '0' ≤ c ∧ c ≤ '9' then some (c.toNat - 48)
  else if 'a' ≤ c ∧ c ≤ 'f' then some (c.toNat - 87)
  else if 'A' ≤ c ∧ c ≤ 'F' then some (c.toNat - 55)
  else none

/-- Translation of a single-character JSON string escape. -/
def unescapeChar (c : Char) : Option Char :=
  if c = '"' then some '"'
  else if c = '\\' then some '\\'
  else if c = '/' then some '/'
  else if c = 'b' then some (Char.ofNat 8)
  else if c = 'f' then some (Char.ofNat 12)
  else if c = 'n' then some '\n'
  else if c = 'r' then some '\r'
  else if c = 't' then some '\t'
  else none

/-- Parse the body of a JSON string (the opening quote already consumed),
returning the decoded characters and the remaining input.  Unescaped control
characters are rejected, as in `JSON.parse`.  `\u` escapes decode a single
code unit (surrogate pairing is not modelled; no evaluated input uses it). -/
def parseJsonString : List Char → Option (List Char × List Char)
  | [] => none
  | c :: rest =>
    if c = '"' then some ([], rest)
    else if c = '\\' then
      match rest with
      | [] => none
      | e :: rest2 =>
        if e = 'u' then
          match rest2 with
          | h1 :: h2 :: h3 :: h4 :: rest3 =>
            match hexVal h1, hexVal h2, hexVal h3, hexVal h4, parseJsonString rest3 with
            | some a, some b, some c2, some d, some (s, rem) =>
              some (Char.ofNat (((a * 16 + b) * 16 + c2) * 16 + d) :: s, rem)
            | _, _, _, _, _ => none
          | _ => none
        else
          match unescapeChar e, parseJsonString rest2 with
          | some ch, some (s, rem) => some (ch :: s, rem)
          | _, _ => none
    else if c.toNat < 32 then none
    else
      match parseJsonString rest with
      | some (s, rem) => some (c :: s, rem)
      | none => none

/-- Consume a maximal run of decimal digits, returning their values. -/
def takeDigits : List Char → List ℕ × List Char
  | [] => ([], [])
  | c :: rest =>
    if c.isDigit then
      let (ds, rem) := takeDigits rest
      ((c.toNat - 48) :: ds, rem)
    else ([], c :: rest)

/-- Digits to a natural number, most significant first. -/
def digitsToNat (ds : List ℕ) : ℕ := ds.foldl (fun a d => a * 10 + d) 0

/-- Parse a JSON number (sign, integer part without superfluous leading
zeros, optional fraction, optional exponent) into an exact rational. -/
def parseJsonNumber (l : List Char) : Option (ℚ × List Char) :=
  let signed : Bool × List Char :=
    match l with
    | '-' :: rest => (true, rest)
    | _ => (false, l)
  let neg := signed.1
  let l1 := signed.2
  match l1 with
  | [] => none
  | c :: _ =>
    if ¬ c.isDigit then none
    else
      let (ids, l2) := takeDigits l1
      if 1 < ids.length ∧ ids.headI = 0 then none
      else
        let intPart : ℚ := (digitsToNat ids : ℚ)
        let fracStep : Option (ℚ × List Char) :=
          match l2 with
          | '.' :: rest =>
            let (fds, l3) := takeDigits rest
            if fds.isEmpty then none
            else some (intPart + (digitsToNat fds : ℚ) / ((10 : ℚ) ^ fds.length), l3)
          | _ => some (intPart, l2)
        match fracStep with
        | none => none
        | some (mag, l4) =>
          let expStep : Option (ℚ × List Char) :=
            match l4 with
            | e :: rest4 =>
              if e = 'e' ∨ e = 'E' then
                let esigned : Bool × List Char :=
                  match rest4 with
                  | '-' :: r => (true, r)
                  | '+' :: r => (false, r)
                  | _ => (false, rest4)
                match esigned.2 with
                | [] => none
                | ec :: _ =>
                  if ¬ ec.isDigit then none
                  else
                    let (eds, l5) := takeDigits esigned.2
                    let escale : ℚ := (10 : ℚ) ^ digitsToNat eds
                    some (if esigned.1 then mag / escale else mag * escale, l5)
              else some (mag, l4)
            | [] => some (mag, l4)
          match expStep with
          | none => none
          | some (q, l6) => some (if neg then -q else q, l6)

mutual

/-- Fuel-bounded recursive-descent parser for a JSON value; the fuel passed
by `jsonParse` always suffices for the inputs evaluated here. -/
def parseJsonValue : ℕ → List Char → Option (JsValue × List Char)
  | 0, _ => none
  | fuel + 1, l =>
    match l.dropWhile isJsonWs with
    | [] => none
    | c :: rest =>
      if c = '{' then parseJsonObjBody fuel rest
      else if c = '[' then parseJsonArrBody fuel rest
      else if c = '"' then
        match parseJsonString rest with
        | some (s, rem) => some (JsValue.str s, rem)
        | none => none
      else if c = 't' then
        match rest with
        | 'r' :: 'u' :: 'e' :: rem => some (JsValue.bool true, rem)
        | _ => none
      else if c = 'f' then
        match rest with
        | 'a' :: 'l' :: 's' :: 'e' :: rem => some (JsValue.bool false, rem)
        | _ => none
      else if c = 'n' then
        match rest with
        | 'u' :: 'l' :: 'l' :: rem => some (JsValue.null, rem)
        | _ => none
      else if c = '-' ∨ c.isDigit then
        match parseJsonNumber (c :: rest) with
        | some (q, rem) => some (JsValue.num q, rem)
        | none => none
      else none

/-- Parse the interior of a JSON object, the opening brace consumed. -/
def parseJsonObjBody : ℕ → List Char → Option (JsValue × List Char)
  | 0, _ => none
  | fuel + 1, l =>
    match l.dropWhile isJsonWs with
    | '}' :: rem => some (JsValue.obj [], rem)
    | l1 => parseJsonObjMembers fuel l1 []

/-- Parse the members of a JSON object (at least one `"key": value`). -/
def parseJsonObjMembers : ℕ → List Char → List (List Char × JsValue) →
    Option (JsValue × List Char)
  | 0, _, _ => none
  | fuel + 1, l, acc =>
    match l.dropWhile isJsonWs with
    | [] => none
    | c :: rest =>
      if c = '"' then
        match parseJsonString rest with
        | some (key, rem1) =>
          match rem1.dropWhile isJsonWs with
          | ':' :: rem2 =>
            match parseJsonValue fuel rem2 with
            | some (v, rem3) =>
              match rem3.dropWhile isJsonWs with
              | ',' :: rem4 => parseJsonObjMembers fuel rem4 (acc ++ [(key, v)])
              | '}' :: rem4 => some (JsValue.obj (acc ++ [(key, v)]), rem4)
              | _ => none
            | none => none
          | _ => none
        | none => none
      else none

/-- Parse the interior of a JSON array, the opening bracket consumed. -/
def parseJsonArrBody : ℕ → List Char → Option (JsValue × List Char)
  | 0, _ => none
  | fuel + 1, l =>
    match l.dropWhile isJsonWs with
    | ']' :: rem => some (JsValue.arr [], rem)
    | l1 => parseJsonArrItems fuel l1 []

/-- Parse the items of a JSON array (at least one value). -/
def parseJsonArrItems : ℕ → List Char → List JsValue → Option (JsValue × List Char)
  | 0, _, _ => none
  | fuel + 1, l, acc =>
    match parseJsonValue fuel l with
    | some (v, rem) =>
      match rem.dropWhile isJsonWs with
      | ',' :: rem2 => parseJsonArrItems fuel rem2 (acc ++ [v])
      | ']' :: rem2 => some (JsValue.arr (acc ++ [v]), rem2)
      | _ => none
    | none => none

end

/-- Model of `JSON.parse`: parse one value, then require only whitespace to
remain. -/
def jsonParse (l : List Char) : Option JsValue :=
  match parseJsonValue (2 * l.length + 4) l with
  | some (v, rem) => if (rem.dropWhile isJsonWs).isEmpty then some v else none
  | none => none

/-! ## Recommendation validation and the response pipeline
(src/services/ollamaService.js lines 77-302) -/

/-- Key of the required instance-count field. -/
def riKey : List Char := "recommended_instances".data

/-- Key of the optional confidence field. -/
def confKey : List Char := "confidence".data

/-- Key of the optional reasoning field. -/
def reasKey : List Char := "reasoning".data

/-- Property lookup on a parsed JSON object: later duplicate keys win, as
with `JSON.parse`. -/
def objGet (fields : List (List Char × JsValue)) (k : List Char) : Option JsValue :=
  fields.foldl (fun acc kv => if kv.1 = k then some kv.2 else acc) none

/-- Field checks of `validateRecommendation` given the object's properties:
`recommended_instances` must be a number, an integer, and at least 1
(`Number.isInteger`, `< 1` rejection); `confidence`, if present, a number in
`[0, 1]`; `reasoning`, if present, a string. -/
def validateRecommendationFields (fields : List (List Char × JsValue)) : Bool :=
  (match objGet fields riKey with
   | some (JsValue.num n) => decide (1 ≤ n) && decide (n.den = 1)
   | _ => false)
  && (match objGet fields confKey with
      | none => true
      | some (JsValue.num c) => decide (0 ≤ c) && decide (c ≤ 1)
      | some _ => false)
  && (match objGet fields reasKey with
      | none => true
      | some (JsValue.str _) => true
      | some _ => false)

/-- Model of `validateRecommendation` (ollamaService.js lines 77-110).
The `!recommendation || typeof recommendation !== 'object'` guard rejects
every non-object JSON value except arrays (JavaScript arrays have
`typeof === 'object'` and are truthy); an array then fails the
`recommended_instances` field check because it has no such property. -/
def validateRecommendation (v : JsValue) : Bool :=
  match v with
  | JsValue.obj fields => validateRecommendationFields fields
  | JsValue.arr _ => validateRecommendationFields []
  | _ => false

/-- Model of JavaScript `String.prototype.trim`. -/
def jsTrim (l : List Char) : List Char :=
  ((l.dropWhile isJsWs).reverse.dropWhile isJsWs).reverse

/-- Model of `responseText.match(/\{[\s\S]*\}/)` followed by taking the
match (ollamaService.js lines 200-204): the regex matches from the first
`{` that has some `}` after it, greedily up to the last `}` of the string —
equivalently, from the first `{` to the last `}` whenever the first `{`
precedes the last `}`.  When the regex does not match, the text is kept
unchanged. -/
def extractJsonObject (l : List Char) : List Char :=
  match List.findIdx? (fun c => c = '{') l, List.findIdx? (fun c => c = '}') l.reverse with
  | some i, some jr =>
    let j := l.length - 1 - jr
    if i < j then (l.drop i).take (j + 1 - i) else l
  | _, _ => l

/-- Match `\s*\}` at the start of the input, returning the remainder. -/
def wsThenBrace : List Char → Option (List Char)
  | [] => none
  | c :: rest =>
    if isJsWs c then wsThenBrace rest
    else if c = '}' then some rest else none

/-- Model of `responseText.replace(/,\s*}/g, '}')` (ollamaService.js line
208): scan left to right; each comma followed by whitespace and a closing
brace collapses to the brace, and scanning resumes after it.  Structured as
fuel recursion (the fuel `l.length` always suffices because every step
consumes at least one character). -/
def removeTrailingCommasGo : ℕ → List Char → List Char
  | 0, l => l
  | fuel + 1, l =>
    match l with
    | [] => []
    | c :: rest =>
      if c = ',' then
        match wsThenBrace rest with
        | some rest2 => '}' :: removeTrailingCommasGo fuel rest2
        | none => ',' :: removeTrailingCommasGo fuel rest
      else c :: removeTrailingCommasGo fuel rest

/-- Entry point of the trailing-comma removal. -/
def removeTrailingCommas (l : List Char) : List Char :=
  removeTrailingCommasGo l.length l

/-- Model of `responseText.replace(/\n\s*/g, ' ')` (ollamaService.js line
211): each line feed together with the following whitespace run becomes a
single space. -/
def collapseNewlinesGo : ℕ → List Char → List Char
  | 0, l => l
  | fuel + 1, l =>
    match l with
    | [] => []
    | c :: rest =>
      if c = '\n' then ' ' :: collapseNewlinesGo fuel (rest.dropWhile isJsWs)
      else c :: collapseNewlinesGo fuel rest

/-- Entry point of the newline collapsing. -/
def collapseNewlines (l : List Char) : List Char :=
  collapseNewlinesGo l.length l

/-- The literal `"reasoning": "` (an opening reasoning field). -/
def reasoningOpen : List Char := "\"reasoning\": \"".data

/-- The literal `"reasoning": ""` (an empty reasoning field). -/
def reasoningOpenEmpty : List Char := "\"reasoning\": \"\"".data

/-- Model of the test `responseText.match(/"reasoning": "[^"]*"/)`
(ollamaService.js line 217).  The regex matches iff some occurrence of
`"reasoning": "` is followed by a later `"`; because the pattern itself
contains quotes, that holds iff the text after the *first* occurrence
contains a `"`. -/
def hasCompleteReasoning (l : List Char) : Bool :=
  match splitFirstOcc reasoningOpen l with
  | some (_, post) => post.contains '"'
  | none => false

/-- Model of `reasoningText.replace(/[^"]*$/, '"')` (ollamaService.js line
225): the trailing run of non-quote characters (possibly empty) is replaced
by a single closing quote, i.e. everything up to and including the last `"`
is kept and a `"` is appended. -/
def fixReasoningTail (post : List Char) : List Char :=
  match List.findIdx? (fun c => c = '"') post.reverse with
  | none => ['"']
  | some jr => post.take (post.length - jr) ++ ['"']

/-- Model of the unclosed-reasoning repair (ollamaService.js lines 214-226):
when the text contains an opening `"reasoning": "` that is neither empty nor
completed by a later quote and the text does not already end in `"}`, keep
everything up to the opening quote and force-close the reasoning value. -/
def fixUnclosedReasoning (l : List Char) : List Char :=
  if jsIncludes l reasoningOpen
      && !(jsIncludes l reasoningOpenEmpty)
      && !(jsEndsWith l ('"' :: '}' :: []))
      && !(hasCompleteReasoning l) then
    match splitFirstOcc reasoningOpen l with
    | some (pre, post) => pre ++ reasoningOpen ++ fixReasoningTail post
    | none => l
  else l

/-- Model of the final `if (!responseText.endsWith('}')) responseText += '}'`
(ollamaService.js lines 229-231). -/
def ensureClosingBrace (l : List Char) : List Char :=
  if jsEndsWith l ('}' :: []) then l else l ++ ('}' :: [])

/-- The structural repair pipeline applied to the raw recommender text
before parsing (ollamaService.js lines 196-231), in source order: trim,
extract the outermost braced substring, remove trailing commas, collapse
newline runs, force-close an unclosed reasoning field, append a missing
closing brace. -/
def processedResponseText (raw : List Char) : List Char :=
  ensureClosingBrace
    (fixUnclosedReasoning
      (collapseNewlines
        (removeTrailingCommas
          (extractJsonObject (jsTrim raw)))))

/-- Model of the parse-and-validate block (ollamaService.js lines 235-258).
`evalJs` is an oracle for the JavaScript `eval` call the source performs as
a last resort on the repaired text (`none` models a thrown evaluation); its
semantics cannot be embedded, so every theorem about this function either
quantifies over the oracle or instantiates it explicitly.  The Boolean
component records whether the `eval` branch was reached.  A value that fails
`validateRecommendation` throws in the source and yields no recommendation
(`none`) here, from either branch. -/
def processResponse (evalJs : List Char → Option JsValue) (raw : List Char) :
    Option JsValue × Bool :=
  let t := processedResponseText raw
  match jsonParse t with
  | some v => (if validateRecommendation v then some v else none, false)
  | none =>
    match evalJs t with
    | some v => (if validateRecommendation v then some v else none, true)
    | none => (none, true)

/-- What one HTTP call to the Ollama generate endpoint produced, as seen by
`getScalingRecommendation`: a transport error (after the transport-level
retries of `makeApiCallWithRetry`), a response without the expected
`data.response` field, or the raw response text. -/
inductive ModelResponse where
  | transportError : ModelResponse
  | noData : ModelResponse
  | responseText : List Char → ModelResponse

/-- One attempt of `getScalingRecommendation` against a single model:
transport errors and missing data yield no recommendation; response text is
pushed through the repair pipeline, parsed and validated. -/
def singleModelAttempt (respond : List Char → List Char → ModelResponse)
    (evalJs : List Char → Option JsValue) (prompt modelName : List Char) :
    Option JsValue :=
  match respond prompt modelName with
  | ModelResponse.transportError => none
  | ModelResponse.noData => none
  | ModelResponse.responseText t => (processResponse evalJs t).1

/-- The recursion of `getScalingRecommendation` (ollamaService.js lines
147-302).  `modelOverride` models the `modelOverride || OLLAMA_MODEL`
defaulting (`[]` plays the role of a falsy override).  On any failure —
transport error, missing data, or parse/validation failure — the source
retries once with `fallbackModel` as the override, guarded by
`modelName !== fallbackModel`; the recursive call therefore stops
immediately.  The second component records each `(prompt, model)` request in
order.  Fuel bounds the recursion; fuel 2 is provably never exhausted when
the fallback model name is non-empty. -/
def getScalingRecommendationGo (respond : List Char → List Char → ModelResponse)
    (evalJs : List Char → Option JsValue)
    (defaultModel fallbackModel prompt : List Char) :
    ℕ → List Char → Option JsValue × List (List Char × List Char)
  | 0, _ => (none, [])
  | fuel + 1, modelOverride =>
    let modelName := if modelOverride = [] then defaultModel else modelOverride
    match singleModelAttempt respond evalJs prompt modelName with
    | some r => (some r, [(prompt, modelName)])
    | none =>
      if modelName = fallbackModel then (none, [(prompt, modelName)])
      else
        let rec2 := getScalingRecommendationGo respond evalJs defaultModel
          fallbackModel prompt fuel fallbackModel
        (rec2.1, (prompt, modelName) :: rec2.2)

/-- Model of `getScalingRecommendation`, entered with the caller's model
override. -/
def getScalingRecommendation (respond : List Char → List Char → ModelResponse)
    (evalJs : List Char → Option JsValue)
    (defaultModel fallbackModel prompt modelOverride : List Char) :
    Option JsValue × List (List Char × List Char) :=
  getScalingRecommendationGo respond evalJs defaultModel fallbackModel prompt 2 modelOverride

/-! ## Custom prompt template substitution
(scripts/schedule-scaling.js `constructOllamaPrompt`, lines 265-282) -/

/-- A `{{name}}` placeholder. -/
def wrapPh (n : List Char) : List Char := '{' :: '{' :: (n ++ ('}' :: '}' :: []))

/-- A name containing no brace characters (every template placeholder name
in the source is of this shape). -/
def braceFree (n : List Char) : Prop := ∀ c ∈ n, c ≠ '{' ∧ c ≠ '}'

instance braceFreeDec (n : List Char) : Decidable (braceFree n) :=
  inferInstanceAs (Decidable (∀ c ∈ n, c ≠ '{' ∧ c ≠ '}'))

/-- Name of the `{{vmss_name}}` placeholder. -/
def phVmssName : List Char := "vmss_name".data

/-- Name of the `{{resource_group}}` placeholder. -/
def phResourceGroup : List Char := "resource_group".data

/-- Name of the `{{metrics_data}}` placeholder. -/
def phMetricsData : List Char := "metrics_data".data

/-- Name of the `{{current_capacity}}` placeholder. -/
def phCurrentCapacity : List Char := "current_capacity".data

/-- Name of the `{{min_instances}}` placeholder. -/
def phMinInstances : List Char := "min_instances".data

/-- Name of the `{{max_instances}}` placeholder. -/
def phMaxInstances : List Char := "max_instances".data

/-- The placeholder names recognised by the template substitution, in
substitution order. -/
def recognizedNames : List (List Char) :=
  [phVmssName, phResourceGroup, phMetricsData,
   phCurrentCapacity, phMinInstances, phMaxInstances]

/-- The recognised placeholders themselves. -/
def recognizedPlaceholders : List (List Char) := recognizedNames.map wrapPh

/-- Model of the custom-template branch of `constructOllamaPrompt`
(schedule-scaling.js lines 271-277): a chain of six JavaScript
`String.prototype.replace` calls with string patterns, each replacing only
the first occurrence of its placeholder. -/
def constructOllamaPromptCustom
    (template vmssName resourceGroup metricsData currentCapacity
      minInstances maxInstances : List Char) : List Char :=
  jsReplaceFirst
    (jsReplaceFirst
      (jsReplaceFirst
        (jsReplaceFirst
          (jsReplaceFirst
            (jsReplaceFirst template (wrapPh phVmssName) vmssName)
            (wrapPh phResourceGroup) resourceGroup)
          (wrapPh phMetricsData) metricsData)
        (wrapPh phCurrentCapacity) currentCapacity)
      (wrapPh phMinInstances) minInstances)
    (wrapPh phMaxInstances) maxInstances

/-! ## Concrete instances used by the claim theorems and witnesses -/

/-- Configuration exhibiting the confidence-gate defect: thresholds in (0,1]
should reject a zero-confidence recommendation. -/
def c2cfg : EngineConfig := ⟨2, 10, 15, 3, false, 1⟩

/-- A recommendation whose confidence is present and exactly 0. -/
def c2rec : OllamaRec := ⟨5, some 0, none⟩

/-- Cycle inputs for the confidence-gate defect: capacity 5, metrics
available, recommendation `c2rec`. -/
def c2env : CycleEnv := ⟨0, some 5, true, some c2rec, fun _ => AttemptOutcome.err, 1⟩

/-- Engine state with no previous scaling operation. -/
def c2st : EngineState := ⟨0, false⟩

/-- The parsed JSON recommendation with confidence 0, as the validator sees
it. -/
def c2json : JsValue := JsValue.obj [(riKey, JsValue.num 5), (confKey, JsValue.num 0)]

/-- Recommender text whose structural parse fails at every pipeline stage
(JSON requires quoted keys): `{recommended_instances: 5}`. -/
def c3BadInput : List Char := '{' :: ("recommended_instances: 5".data ++ ('}' :: []))

/-- An `eval` oracle standing for the JavaScript evaluation of
`({recommended_instances: 5})`, which succeeds and yields a valid object. -/
def c3EvalOracle : List Char → Option JsValue :=
  fun _ => some (JsValue.obj [(riKey, JsValue.num 5)])

/-! ## Helper lemmas -/

/-- Sanity: the integer-division implementation of `jsRound` computes
`⌊q + 1/2⌋`, the mathematical description of rounding half up. -/
theorem jsRound_eq_floor (q : ℚ) : jsRound q = ⌊q + 1/2⌋ := by
  have hd : (q.den : ℚ) ≠ 0 := by exact_mod_cast q.den_ne_zero
  have key : q * (q.den : ℚ) = (q.num : ℚ) := by
    nth_rewrite 1 [← Rat.num_div_den q]
    exact div_mul_cancel₀ _ hd
  have h1 : (q + 1/2 : ℚ) = ((2 * q.num + (q.den : ℤ) : ℤ) : ℚ) / ((2 * q.den : ℕ) : ℚ) := by
    rw [eq_div_iff (by positivity)]
    push_cast
    linear_combination (2 : ℚ) * key
  rw [jsRound, h1, Rat.floor_intCast_div_natCast]
  push_cast
  rfl

/-- Whenever the retry loop reports success, it has recorded `execNow` as the
last scaling time. -/
theorem execAttemptLoop_success_last (attempts : ℕ → AttemptOutcome)
    (execNow last0 target : ℤ) :
    ∀ r k, (execAttemptLoop attempts execNow last0 target k r).success = true →
      (execAttemptLoop attempts execNow last0 target k r).lastScalingOperationTime = execNow := by
  intro r
  induction r with
  | zero => intro k h; simp [execAttemptLoop] at h
  | succ r ih =>
    intro k h
    simp only [execAttemptLoop] at h ⊢
    cases hA : attempts k with
    | ok c =>
      dsimp only
      split <;> rfl
    | err =>
      rw [hA] at h
      dsimp only at h ⊢
      exact ih (k + 1) h

/-- When every attempt in the window throws, the retry loop fails and leaves
the last scaling time unchanged. -/
theorem execAttemptLoop_all_err (attempts : ℕ → AttemptOutcome)
    (execNow last0 target : ℤ) :
    ∀ r k, (∀ j, k ≤ j → j < k + r → attempts j = AttemptOutcome.err) →
      (execAttemptLoop attempts execNow last0 target k r).success = false ∧
      (execAttemptLoop attempts execNow last0 target k r).lastScalingOperationTime = last0 := by
  intro r
  induction r with
  | zero => intro k _; simp [execAttemptLoop]
  | succ r ih =>
    intro k hall
    have hk : attempts k = AttemptOutcome.err := hall k (Nat.le_refl k) (by omega)
    have ihk := ih (k + 1) (fun j h1 h2 => hall j (by omega) (by omega))
    simp only [execAttemptLoop, hk]
    exact ihk

/-- Any completed attempt inside the window makes the retry loop succeed and
record `execNow`. -/
theorem execAttemptLoop_some_ok (attempts : ℕ → AttemptOutcome)
    (execNow last0 target : ℤ) :
    ∀ r k, (∃ j c, k ≤ j ∧ j < k + r ∧ attempts j = AttemptOutcome.ok c) →
      (execAttemptLoop attempts execNow last0 target k r).success = true ∧
      (execAttemptLoop attempts execNow last0 target k r).lastScalingOperationTime = execNow := by
  intro r
  induction r with
  | zero =>
    intro k h
    obtain ⟨j, c, h1, h2, _⟩ := h
    omega
  | succ r ih =>
    intro k h
    obtain ⟨j, c, h1, h2, h3⟩ := h
    simp only [execAttemptLoop]
    cases hA : attempts k with
    | ok c2 =>
      dsimp only
      split <;> exact ⟨rfl, rfl⟩
    | err =>
      have hjk : j ≠ k := by
        intro he
        rw [he, hA] at h3
        exact AttemptOutcome.noConfusion h3
      have := ih (k + 1) ⟨j, c, by omega, by omega, h3⟩
      dsimp only
      exact this

/-- With a completed first attempt, live execution succeeds after exactly one
backend call and records `execNow`. -/
theorem executeScalingOperation_first_ok (retryCount : ℕ)
    (attempts : ℕ → AttemptOutcome) (execNow last0 target : ℤ) (c : Option ℤ)
    (hr : 1 ≤ retryCount) (h1 : attempts 1 = AttemptOutcome.ok c) :
    executeScalingOperation false retryCount attempts execNow last0 target
      = ⟨true, execNow, [target]⟩ := by
  obtain ⟨r, rfl⟩ : ∃ r, retryCount = r + 1 := ⟨retryCount - 1, by omega⟩
  have h0 : executeScalingOperation false (r + 1) attempts execNow last0 target
      = execAttemptLoop attempts execNow last0 target 1 (r + 1) := rfl
  rw [h0]
  simp only [execAttemptLoop, h1]
  split <;> rfl

/-! ## Claim theorems -/

/-- Claim C1.  For every recommendation value and every configuration with
`minInstances ≤ maxInstances`: the target the engine executes equals
`clamp(round(x), minInstances, maxInstances)`; that clamped value always lies
within `[minInstances, maxInstances]`; and re-clamping an already-clamped
value returns it unchanged. -/
theorem claim_C1 (cfg : EngineConfig) (env : CycleEnv) (st : EngineState)
    (r : OllamaRec) (hminmax : cfg.minInstances ≤ cfg.maxInstances)
    (hrec : env.recommendation = some r) :
    (∀ t : ℤ, (checkAndScale cfg env st).outcome = CycleOutcome.executed t →
      t = clamp cfg.minInstances cfg.maxInstances (jsRound r.recommended_instances))
    ∧ cfg.minInstances ≤ clamp cfg.minInstances cfg.maxInstances (jsRound r.recommended_instances)
    ∧ clamp cfg.minInstances cfg.maxInstances (jsRound r.recommended_instances) ≤ cfg.maxInstances
    ∧ clamp cfg.minInstances cfg.maxInstances
        (clamp cfg.minInstances cfg.maxInstances (jsRound r.recommended_instances))
      = clamp cfg.minInstances cfg.maxInstances (jsRound r.recommended_instances) := by
  refine ⟨?_, ?_, ?_, ?_⟩
  · intro t h
    simp only [checkAndScale, hrec] at h
    repeat' split at h
    all_goals simp_all [clamp]
  · simp only [clamp]; omega
  · simp only [clamp]; omega
  · simp only [clamp]; omega

/-- Witness for claim C1 at a concrete configuration and recommendation. -/
theorem claim_C1_witness :
    ((2 : ℤ) ≤ 10
    ∧ (⟨0, some 3, true, some ⟨7, some 1, none⟩, fun _ => AttemptOutcome.err, 5⟩ :
        CycleEnv).recommendation = some ⟨7, some 1, none⟩)
    ∧ ((∀ t : ℤ, (checkAndScale ⟨2, 10, 15, 3, false, 1⟩
          ⟨0, some 3, true, some ⟨7, some 1, none⟩, fun _ => AttemptOutcome.err, 5⟩
          ⟨0, false⟩).outcome = CycleOutcome.executed t →
        t = clamp 2 10 (jsRound 7))
      ∧ (2 : ℤ) ≤ clamp 2 10 (jsRound 7)
      ∧ clamp 2 10 (jsRound 7) ≤ 10
      ∧ clamp 2 10 (clamp 2 10 (jsRound 7)) = clamp 2 10 (jsRound 7)) :=
  ⟨⟨by decide, rfl⟩,
    claim_C1 ⟨2, 10, 15, 3, false, 1⟩
      ⟨0, some 3, true, some ⟨7, some 1, none⟩, fun _ => AttemptOutcome.err, 5⟩
      ⟨0, false⟩ ⟨7, some 1, none⟩ (by decide) rfl⟩

/-- Claim C2, demonstrated false in the code (code defect): the validator
accepts a recommendation whose confidence is present and exactly 0, but the
gate computes its effective confidence with `confidence || 1.0`, which treats
the falsy number 0 as absent and yields 1.0; with threshold 1 the cycle
therefore proceeds (here to `noChangeNeeded`) instead of terminating with the
low-confidence skip the claim requires. -/
theorem claim_C2_bug :
    validateRecommendation c2json = true
    ∧ jsOrOne (some 0) = 1
    ∧ (checkAndScale c2cfg c2env c2st).outcome = CycleOutcome.noChangeNeeded
    ∧ (checkAndScale c2cfg c2env c2st).outcome ≠ CycleOutcome.lowConfidence := by
  refine ⟨by decide, by decide, by decide, by decide⟩

/-- Claim C4.  A successful execution (real or dry-run) sets the cooldown
timestamp to the current time, so it strictly increases; an execution that
exhausts every retry attempt without success leaves it unchanged. -/
theorem claim_C4 (dryRun : Bool) (retryCount : ℕ) (attempts : ℕ → AttemptOutcome)
    (execNow last0 target : ℤ) (hmono : last0 < execNow) :
    ((executeScalingOperation dryRun retryCount attempts execNow last0 target).success = true →
      (executeScalingOperation dryRun retryCount attempts execNow last0 target).lastScalingOperationTime
          = execNow
        ∧ last0 < (executeScalingOperation dryRun retryCount attempts execNow last0
            target).lastScalingOperationTime)
    ∧ ((dryRun = false ∧ ∀ k, 1 ≤ k → k ≤ retryCount → attempts k = AttemptOutcome.err) →
      (executeScalingOperation dryRun retryCount attempts execNow last0 target).success = false
        ∧ (executeScalingOperation dryRun retryCount attempts execNow last0
            target).lastScalingOperationTime = last0) := by
  constructor
  · intro hs
    cases dryRun with
    | true => exact ⟨rfl, hmono⟩
    | false =>
      have hlast := execAttemptLoop_success_last attempts execNow last0 target retryCount 1 hs
      refine ⟨hlast, ?_⟩
      rw [show (executeScalingOperation false retryCount attempts execNow last0
        target).lastScalingOperationTime
        = (execAttemptLoop attempts execNow last0 target 1 retryCount).lastScalingOperationTime
        from rfl, hlast]
      exact hmono
  · rintro ⟨rfl, hall⟩
    exact execAttemptLoop_all_err attempts execNow last0 target retryCount 1
      (fun j h1 h2 => hall j h1 (by omega))

/-- Witness for claim C4: no attempt succeeds, so the timestamp stays 0. -/
theorem claim_C4_witness :
    (0 : ℤ) < 5
    ∧ (((executeScalingOperation false 2 (fun _ => AttemptOutcome.err) 5 0 7).success = true →
        (executeScalingOperation false 2 (fun _ => AttemptOutcome.err) 5 0 7).lastScalingOperationTime
            = 5
          ∧ (0 : ℤ) < (executeScalingOperation false 2 (fun _ => AttemptOutcome.err) 5 0
              7).lastScalingOperationTime)
      ∧ ((false = false ∧ ∀ k, 1 ≤ k → k ≤ 2 → (fun _ => AttemptOutcome.err) k = AttemptOutcome.err) →
        (executeScalingOperation false 2 (fun _ => AttemptOutcome.err) 5 0 7).success = false
          ∧ (executeScalingOperation false 2 (fun _ => AttemptOutcome.err) 5 0
              7).lastScalingOperationTime = 0)) :=
  ⟨by decide, claim_C4 false 2 (fun _ => AttemptOutcome.err) 5 0 7 (by decide)⟩

/-- Claim C5.  A cycle that starts while the cooldown is active (a previous
scaling time is recorded and less than the cooldown duration has elapsed)
terminates with the in-cooldown skip, unchanged state, and an empty effect
trace — no VMSS read, no metrics load, no recommender call and no backend
mutation, regardless of the metrics or recommendation content. -/
theorem claim_C5 (cfg : EngineConfig) (env : CycleEnv) (st : EngineState)
    (h1 : st.isScalingInProgress = false)
    (h2 : st.lastScalingOperationTime ≠ 0)
    (h3 : env.now - st.lastScalingOperationTime < cfg.scalingCooldownMinutes * 60 * 1000) :
    checkAndScale cfg env st
      = ⟨CycleOutcome.inCooldown, ⟨st.lastScalingOperationTime, false⟩, []⟩ := by
  simp [checkAndScale, isInCooldown, h1, h2, h3]

/-- Witness for claim C5: last scaling 5 minutes ago, cooldown 15 minutes. -/
theorem claim_C5_witness :
    ((⟨1000000, false⟩ : EngineState).isScalingInProgress = false
    ∧ (⟨1000000, false⟩ : EngineState).lastScalingOperationTime ≠ 0
    ∧ (⟨1300000, some 3, true, some ⟨7, some 1, none⟩, fun _ => AttemptOutcome.err, 1300000⟩ :
          CycleEnv).now - (⟨1000000, false⟩ : EngineState).lastScalingOperationTime
        < (⟨2, 10, 15, 3, false, 1⟩ : EngineConfig).scalingCooldownMinutes * 60 * 1000)
    ∧ checkAndScale ⟨2, 10, 15, 3, false, 1⟩
        ⟨1300000, some 3, true, some ⟨7, some 1, none⟩, fun _ => AttemptOutcome.err, 1300000⟩
        ⟨1000000, false⟩
      = ⟨CycleOutcome.inCooldown, ⟨1000000, false⟩, []⟩ :=
  ⟨⟨by decide, by decide, by decide⟩,
    claim_C5 ⟨2, 10, 15, 3, false, 1⟩
      ⟨1300000, some 3, true, some ⟨7, some 1, none⟩, fun _ => AttemptOutcome.err, 1300000⟩
      ⟨1000000, false⟩ (by decide) (by decide) (by decide)⟩

/-- Counterexample to claim C7: the backend completes with resulting capacity
4 while the requested target is 7, yet the code marks the operation
successful and records the cooldown timestamp (0 becomes 1000) — the source
explicitly treats ambiguous verification as success.  So the scaling-applied
record is not set only when the resulting capacity equals the target. -/
theorem claim_C7_counterexample :
    (executeScalingOperation false 3 (fun _ => AttemptOutcome.ok (some 4)) 1000 0 7).success = true
    ∧ (executeScalingOperation false 3 (fun _ => AttemptOutcome.ok (some 4)) 1000 0
        7).lastScalingOperationTime = 1000
    ∧ some (4 : ℤ) ≠ some (7 : ℤ)
    ∧ (0 : ℤ) ≠ 1000 := by decide

/-- Claim C7 as amended: the cooldown timestamp is recorded after any
backend update attempt that completes without throwing — regardless of
whether the reported resulting capacity equals the requested target (a
mismatch is only logged). -/
theorem claim_C7_amended (retryCount : ℕ) (attempts : ℕ → AttemptOutcome)
    (execNow last0 target : ℤ) (k : ℕ) (c : Option ℤ)
    (h1 : 1 ≤ k) (h2 : k ≤ retryCount) (h3 : attempts k = AttemptOutcome.ok c) :
    (executeScalingOperation false retryCount attempts execNow last0 target).success = true
    ∧ (executeScalingOperation false retryCount attempts execNow last0
        target).lastScalingOperationTime = execNow :=
  execAttemptLoop_some_ok attempts execNow last0 target retryCount 1
    ⟨k, c, h1, by omega, h3⟩

/-- Witness for the amended claim C7. -/
theorem claim_C7_amended_witness :
    (1 ≤ 1 ∧ 1 ≤ 1
      ∧ (fun _ => AttemptOutcome.ok (none : Option ℤ)) 1 = AttemptOutcome.ok none)
    ∧ ((executeScalingOperation false 1 (fun _ => AttemptOutcome.ok none) 9 0 7).success = true
      ∧ (executeScalingOperation false 1 (fun _ => AttemptOutcome.ok none) 9 0
          7).lastScalingOperationTime = 9) :=
  ⟨⟨by decide, by decide, rfl⟩,
    claim_C7_amended 1 (fun _ => AttemptOutcome.ok none) 9 0 7 1 none
      (by decide) (by decide) rfl⟩

/-- Every backend mutation recorded by the retry loop is a backend-update
effect, so filtering backend updates out of an execution's effect
contribution leaves nothing. -/
theorem backendCalls_filter (l : List ℤ) :
    (l.map CycleEffect.backendUpdate).filter (fun e => !(isBackendUpdate e)) = [] := by
  induction l with
  | nil => rfl
  | cons a t ih => simp [isBackendUpdate, ih]

/-- Counterexample to claim C9: when every backend attempt throws, a cycle
that reaches the execution stage diverges between the two modes — dry-run
reports the scaling as executed and records the cooldown timestamp (0
becomes 5), while live mode ends with a scaling failure and leaves the
timestamp unchanged.  So dry-run and live mode do not produce the same
decision trace and state updates for every cycle reaching execution. -/
theorem claim_C9_counterexample :
    (checkAndScale ⟨2, 10, 15, 3, true, 1⟩
        ⟨0, some 3, true, some ⟨7, some 1, none⟩, fun _ => AttemptOutcome.err, 5⟩
        ⟨0, false⟩).outcome = CycleOutcome.executed 7
    ∧ (checkAndScale ⟨2, 10, 15, 3, false, 1⟩
        ⟨0, some 3, true, some ⟨7, some 1, none⟩, fun _ => AttemptOutcome.err, 5⟩
        ⟨0, false⟩).outcome = CycleOutcome.scalingFailed
    ∧ (checkAndScale ⟨2, 10, 15, 3, true, 1⟩
        ⟨0, some 3, true, some ⟨7, some 1, none⟩, fun _ => AttemptOutcome.err, 5⟩
        ⟨0, false⟩).outcome
      ≠ (checkAndScale ⟨2, 10, 15, 3, false, 1⟩
        ⟨0, some 3, true, some ⟨7, some 1, none⟩, fun _ => AttemptOutcome.err, 5⟩
        ⟨0, false⟩).outcome
    ∧ (checkAndScale ⟨2, 10, 15, 3, true, 1⟩
        ⟨0, some 3, true, some ⟨7, some 1, none⟩, fun _ => AttemptOutcome.err, 5⟩
        ⟨0, false⟩).state.lastScalingOperationTime = 5
    ∧ (checkAndScale ⟨2, 10, 15, 3, false, 1⟩
        ⟨0, some 3, true, some ⟨7, some 1, none⟩, fun _ => AttemptOutcome.err, 5⟩
        ⟨0, false⟩).state.lastScalingOperationTime = 0 := by
  refine ⟨by decide, by decide, by decide, by decide, by decide⟩

/-- Claim C9 as amended.  For every cycle that reaches the execution stage
and whose backend execution completes on some attempt within the retry
budget, dry-run mode yields the same outcome and the same resulting engine
state — including the simulated cooldown update — as live mode; the effect
traces agree except that the live trace additionally contains the backend
capacity mutations, and the dry-run trace contains no backend mutation at
all.  When every backend attempt fails the modes necessarily diverge
(`claim_C9_counterexample`), because dry-run always simulates success. -/
theorem claim_C9 (minI maxI cdm : ℤ) (retryCount : ℕ) (thr : ℚ) (env : CycleEnv)
    (st : EngineState) (k : ℕ) (c : Option ℤ)
    (hk1 : 1 ≤ k) (hk2 : k ≤ retryCount) (hok : env.attempts k = AttemptOutcome.ok c) :
    (checkAndScale ⟨minI, maxI, cdm, retryCount, true, thr⟩ env st).outcome
        = (checkAndScale ⟨minI, maxI, cdm, retryCount, false, thr⟩ env st).outcome
    ∧ (checkAndScale ⟨minI, maxI, cdm, retryCount, true, thr⟩ env st).state
        = (checkAndScale ⟨minI, maxI, cdm, retryCount, false, thr⟩ env st).state
    ∧ (checkAndScale ⟨minI, maxI, cdm, retryCount, true, thr⟩ env st).effects
        = (checkAndScale ⟨minI, maxI, cdm, retryCount, false, thr⟩ env st).effects.filter
            (fun e => !(isBackendUpdate e))
    ∧ (checkAndScale ⟨minI, maxI, cdm, retryCount, true, thr⟩ env st).effects.all
        (fun e => !(isBackendUpdate e)) = true := by
  have hLive : ∀ tgt : ℤ,
      (executeScalingOperation false retryCount env.attempts env.execNow
          st.lastScalingOperationTime tgt).success = true
      ∧ (executeScalingOperation false retryCount env.attempts env.execNow
          st.lastScalingOperationTime tgt).lastScalingOperationTime = env.execNow :=
    fun tgt => execAttemptLoop_some_ok env.attempts env.execNow
      st.lastScalingOperationTime tgt retryCount 1 ⟨k, c, hk1, by omega, hok⟩
  have hexecD : ∀ tgt : ℤ,
      executeScalingOperation true retryCount env.attempts env.execNow
        st.lastScalingOperationTime tgt = ⟨true, env.execNow, []⟩ :=
    fun _ => rfl
  simp only [checkAndScale]
  cases hip : st.isScalingInProgress
  · cases hcd : isInCooldown cdm st.lastScalingOperationTime env.now
    · cases hv : env.vmssCapacity with
      | none => exact ⟨rfl, rfl, rfl, rfl⟩
      | some cap =>
        cases hm : env.metricsAvailable
        · exact ⟨rfl, rfl, rfl, rfl⟩
        · cases hrec : env.recommendation with
          | none => exact ⟨rfl, rfl, rfl, rfl⟩
          | some r =>
            by_cases hconf : jsOrOne r.confidence < thr
            · simp only [if_pos hconf]
              simp [isBackendUpdate]
            · simp only [if_neg hconf]
              by_cases hne : max minI (min maxI (jsRound r.recommended_instances)) ≠ cap
              · simp only [if_pos hne, hexecD,
                  (hLive (max minI (min maxI (jsRound r.recommended_instances)))).1,
                  (hLive (max minI (min maxI (jsRound r.recommended_instances)))).2]
                simp [isBackendUpdate, backendCalls_filter, List.filter_append]
              · simp only [if_neg hne]
                simp [isBackendUpdate]
    · exact ⟨rfl, rfl, rfl, rfl⟩
  · exact ⟨rfl, rfl, rfl, rfl⟩

/-- Witness for the amended claim C9 at a concrete cycle whose backend
completes only on the second of three attempts. -/
theorem claim_C9_witness :
    (1 ≤ 2 ∧ 2 ≤ 3
      ∧ (⟨0, some 3, true, some ⟨7, some 1, none⟩,
          fun j => if j = 2 then AttemptOutcome.ok (some 7) else AttemptOutcome.err, 5⟩ :
          CycleEnv).attempts 2 = AttemptOutcome.ok (some 7))
    ∧ ((checkAndScale ⟨2, 10, 15, 3, true, 1⟩
          ⟨0, some 3, true, some ⟨7, some 1, none⟩,
            fun j => if j = 2 then AttemptOutcome.ok (some 7) else AttemptOutcome.err, 5⟩
          ⟨0, false⟩).outcome
        = (checkAndScale ⟨2, 10, 15, 3, false, 1⟩
          ⟨0, some 3, true, some ⟨7, some 1, none⟩,
            fun j => if j = 2 then AttemptOutcome.ok (some 7) else AttemptOutcome.err, 5⟩
          ⟨0, false⟩).outcome
      ∧ (checkAndScale ⟨2, 10, 15, 3, true, 1⟩
          ⟨0, some 3, true, some ⟨7, some 1, none⟩,
            fun j => if j = 2 then AttemptOutcome.ok (some 7) else AttemptOutcome.err, 5⟩
          ⟨0, false⟩).state
        = (checkAndScale ⟨2, 10, 15, 3, false, 1⟩
          ⟨0, some 3, true, some ⟨7, some 1, none⟩,
            fun j => if j = 2 then AttemptOutcome.ok (some 7) else AttemptOutcome.err, 5⟩
          ⟨0, false⟩).state
      ∧ (checkAndScale ⟨2, 10, 15, 3, true, 1⟩
          ⟨0, some 3, true, some ⟨7, some 1, none⟩,
            fun j => if j = 2 then AttemptOutcome.ok (some 7) else AttemptOutcome.err, 5⟩
          ⟨0, false⟩).effects
        = ((checkAndScale ⟨2, 10, 15, 3, false, 1⟩
          ⟨0, some 3, true, some ⟨7, some 1, none⟩,
            fun j => if j = 2 then AttemptOutcome.ok (some 7) else AttemptOutcome.err, 5⟩
          ⟨0, false⟩).effects.filter (fun e => !(isBackendUpdate e)))
      ∧ (checkAndScale ⟨2, 10, 15, 3, true, 1⟩
          ⟨0, some 3, true, some ⟨7, some 1, none⟩,
            fun j => if j = 2 then AttemptOutcome.ok (some 7) else AttemptOutcome.err, 5⟩
          ⟨0, false⟩).effects.all (fun e => !(isBackendUpdate e)) = true) :=
  ⟨⟨by decide, by decide, rfl⟩,
    claim_C9 2 10 15 3 1
      ⟨0, some 3, true, some ⟨7, some 1, none⟩,
        fun j => if j = 2 then AttemptOutcome.ok (some 7) else AttemptOutcome.err, 5⟩
      ⟨0, false⟩ 2 (some 7) (by decide) (by decide) rfl⟩

/-- Claim C6.  A sample series whose first-half mean is exactly 0 and whose
second-half mean is strictly positive is classified `increasing`.  The
classification comes from the sign-comparison fallback branch, which the
source enters before ever forming the percent-change quotient, so no
division by the zero first-half mean occurs; in this exact-rational model
the function is total and `NaN`-free by construction. -/
theorem claim_C6 (values : List ℚ) (h2 : 2 ≤ values.length)
    (hfz : (values.take (values.length / 2)).sum
        / ((values.take (values.length / 2)).length : ℚ) = 0)
    (hsp : 0 < (values.drop (values.length / 2)).sum
        / ((values.drop (values.length / 2)).length : ℚ)) :
    calculateTrend values = Trend.increasing := by
  have hlen : ¬ values.length < 2 := by omega
  have hhi : ¬ values.length / 2 = 0 := by omega
  simp only [calculateTrend, if_neg hlen, if_neg hhi, if_pos hfz, if_pos hsp]

/-- Witness for claim C6 on the series 0, 0, 1, 1. -/
theorem claim_C6_witness :
    (2 ≤ ([0, 0, 1, 1] : List ℚ).length
    ∧ (([0, 0, 1, 1] : List ℚ).take (([0, 0, 1, 1] : List ℚ).length / 2)).sum
        / (((([0, 0, 1, 1] : List ℚ).take (([0, 0, 1, 1] : List ℚ).length / 2)).length : ℚ)) = 0
    ∧ 0 < (([0, 0, 1, 1] : List ℚ).drop (([0, 0, 1, 1] : List ℚ).length / 2)).sum
        / (((([0, 0, 1, 1] : List ℚ).drop (([0, 0, 1, 1] : List ℚ).length / 2)).length : ℚ)))
    ∧ calculateTrend [0, 0, 1, 1] = Trend.increasing :=
  ⟨⟨by norm_num, by norm_num, by norm_num⟩,
    claim_C6 [0, 0, 1, 1] (by norm_num) (by norm_num) (by norm_num)⟩

/-- Claim C3, demonstrated false in the code (code defect): on the raw text
`{recommended_instances: 5}` every structural parse attempt of the recovery
pipeline fails (JSON requires quoted keys), yet instead of reporting an
unparseable error the source evaluates the untrusted text with `eval`; the
Boolean flag of `processResponse` records that the `eval` branch was reached
for every possible evaluation oracle, and with the oracle standing for real
JavaScript evaluation the pipeline returns a recommendation produced by
dynamic code evaluation. -/
theorem claim_C3_bug :
    jsonParse (processedResponseText c3BadInput) = none
    ∧ (∀ evalJs : List Char → Option JsValue, (processResponse evalJs c3BadInput).2 = true)
    ∧ (processResponse c3EvalOracle c3BadInput).1
        = some (JsValue.obj [(riKey, JsValue.num 5)]) := by
  have hnone : jsonParse (processedResponseText c3BadInput) = none := rfl
  refine ⟨hnone, ?_, rfl⟩
  intro evalJs
  rcases hE : evalJs (processedResponseText c3BadInput) with _ | v <;>
    simp [processResponse, hnone, hE]

/-- Claim C8.  With a non-empty fallback model name (guaranteed by the
configuration defaulting `process.env.OLLAMA_FALLBACK_MODEL || 'mistral:7b'`):
the sequence of recommender requests is exactly one request to the resolved
primary model, followed — only when that attempt fails outright or fails
parsing/validation, and only when the primary differs from the fallback — by
exactly one request to the fallback model with the identical prompt; never
more than two requests are made, and when the resolved primary equals the
fallback only a single request is made. -/
theorem claim_C8 (respond : List Char → List Char → ModelResponse)
    (evalJs : List Char → Option JsValue)
    (defaultModel fallbackModel prompt modelOverride : List Char)
    (hfb : fallbackModel ≠ []) :
    (getScalingRecommendation respond evalJs defaultModel fallbackModel prompt modelOverride).2
      = (if (singleModelAttempt respond evalJs prompt
              (if modelOverride = [] then defaultModel else modelOverride)).isNone = true
            ∧ (if modelOverride = [] then defaultModel else modelOverride) ≠ fallbackModel
          then [(prompt, if modelOverride = [] then defaultModel else modelOverride),
                (prompt, fallbackModel)]
          else [(prompt, if modelOverride = [] then defaultModel else modelOverride)])
    ∧ (getScalingRecommendation respond evalJs defaultModel fallbackModel prompt
        modelOverride).2.length ≤ 2
    ∧ ((if modelOverride = [] then defaultModel else modelOverride) = fallbackModel →
      (getScalingRecommendation respond evalJs defaultModel fallbackModel prompt
          modelOverride).2 = [(prompt, fallbackModel)]) := by
  have hcalls :
      (getScalingRecommendation respond evalJs defaultModel fallbackModel prompt
          modelOverride).2
        = (if (singleModelAttempt respond evalJs prompt
                (if modelOverride = [] then defaultModel else modelOverride)).isNone = true
              ∧ (if modelOverride = [] then defaultModel else modelOverride) ≠ fallbackModel
            then [(prompt, if modelOverride = [] then defaultModel else modelOverride),
                  (prompt, fallbackModel)]
            else [(prompt, if modelOverride = [] then defaultModel else modelOverride)]) := by
    simp only [getScalingRecommendation, getScalingRecommendationGo]
    rcases hatt : singleModelAttempt respond evalJs prompt
        (if modelOverride = [] then defaultModel else modelOverride) with _ | r
    · by_cases hmf : (if modelOverride = [] then defaultModel else modelOverride) = fallbackModel
      · simp [hmf]
      · simp only [if_neg hmf, if_neg hfb]
        rcases hatt2 : singleModelAttempt respond evalJs prompt fallbackModel with _ | r2 <;>
          simp [hatt, hmf, hatt2]
    · simp [hatt]
  refine ⟨hcalls, ?_, ?_⟩
  · rw [hcalls]
    repeat' split
    all_goals simp
  · intro hmf
    rw [hcalls, if_neg ?_, hmf]
    rintro ⟨-, hne⟩
    exact hne hmf

/-- Witness for claim C8: the primary call fails with a transport error and
the fallback is tried exactly once. -/
theorem claim_C8_witness :
    ("mistral".data ≠ ([] : List Char))
    ∧ ((getScalingRecommendation (fun _ _ => ModelResponse.transportError) (fun _ => none)
          "llama3".data "mistral".data "p".data []).2
        = (if (singleModelAttempt (fun _ _ => ModelResponse.transportError) (fun _ => none)
                "p".data (if ([] : List Char) = [] then "llama3".data else [])).isNone = true
              ∧ (if ([] : List Char) = [] then "llama3".data else []) ≠ "mistral".data
            then [("p".data, if ([] : List Char) = [] then "llama3".data else []),
                  ("p".data, "mistral".data)]
            else [("p".data, if ([] : List Char) = [] then "llama3".data else [])])
      ∧ (getScalingRecommendation (fun _ _ => ModelResponse.transportError) (fun _ => none)
          "llama3".data "mistral".data "p".data []).2.length ≤ 2
      ∧ ((if ([] : List Char) = [] then "llama3".data else []) = "mistral".data →
        (getScalingRecommendation (fun _ _ => ModelResponse.transportError) (fun _ => none)
            "llama3".data "mistral".data "p".data []).2 = [("p".data, "mistral".data)])) :=
  ⟨by decide,
    claim_C8 (fun _ _ => ModelResponse.transportError) (fun _ => none)
      "llama3".data "mistral".data "p".data [] (by decide)⟩

/-- An occurrence of a non-empty pattern fits inside the string. -/
theorem matchesAt_le_length {pat s : List Char} {i : ℕ} (hp : pat ≠ [])
    (h : matchesAt pat s i) : i + pat.length ≤ s.length := by
  have hlen := congrArg List.length h
  simp only [List.length_take, List.length_drop] at hlen
  have hp0 : 0 < pat.length := List.length_pos.mpr hp
  omega

/-- Pointwise description of an occurrence. -/
theorem matchesAt_getElem {pat s : List Char} {i : ℕ} (h : matchesAt pat s i)
    {k : ℕ} (hk : k < pat.length) : s[i + k]? = pat[k]? := by
  conv_rhs => rw [← h]
  rw [List.getElem?_take, if_pos hk, List.getElem?_drop]

/-- Length of a wrapped placeholder. -/
theorem wrapPh_length (n : List Char) : (wrapPh n).length = n.length + 4 := by
  simp [wrapPh]

/-- A wrapped placeholder is non-empty. -/
theorem wrapPh_ne_nil (n : List Char) : wrapPh n ≠ [] := by
  simp [wrapPh]

/-- The two opening braces of a placeholder. -/
theorem wrapPh_getElem_zero (n : List Char) : (wrapPh n)[0]? = some '{' := rfl

/-- The second opening brace of a placeholder. -/
theorem wrapPh_getElem_one (n : List Char) : (wrapPh n)[1]? = some '{' := by
  show ('{' :: '{' :: (n ++ ('}' :: '}' :: [])))[0 + 1]? = some '{'
  rw [List.getElem?_cons_succ, List.getElem?_cons_zero]

/-- The first closing brace of a placeholder. -/
theorem wrapPh_getElem_close (n : List Char) :
    (wrapPh n)[n.length + 2]? = some '}' := by
  show ('{' :: '{' :: (n ++ ('}' :: '}' :: [])))[n.length + 2]? = some '}'
  rw [show n.length + 2 = n.length + 1 + 1 from rfl, List.getElem?_cons_succ,
    List.getElem?_cons_succ, List.getElem?_append_right (Nat.le_refl _)]
  simp

/-- Opening braces occur only at the first two positions of a placeholder. -/
theorem wrapPh_open_pos {n : List Char} (hn : braceFree n) {k : ℕ}
    (h : (wrapPh n)[k]? = some '{') : k = 0 ∨ k = 1 := by
  match k with
  | 0 => exact Or.inl rfl
  | 1 => exact Or.inr rfl
  | k + 2 =>
    exfalso
    rw [show wrapPh n = '{' :: '{' :: (n ++ ('}' :: '}' :: [])) from rfl,
      show k + 2 = k + 1 + 1 from rfl, List.getElem?_cons_succ,
      List.getElem?_cons_succ, List.getElem?_append] at h
    split at h
    · have hmem : '{' ∈ n := by
        rw [List.getElem?_eq_some] at h
        obtain ⟨w, hw⟩ := h
        exact hw ▸ List.getElem_mem w
      exact ((hn '{' hmem).1 rfl).elim
    · match hmk : k - n.length with
      | 0 => rw [hmk] at h; exact absurd h (by decide)
      | 1 => rw [hmk] at h; exact absurd h (by decide)
      | j + 2 =>
        rw [hmk, List.getElem?_eq_none (by simp)] at h
        exact Option.noConfusion h

/-- Closing braces occur only at the last two positions of a placeholder. -/
theorem wrapPh_close_pos {n : List Char} (hn : braceFree n) {k : ℕ}
    (h : (wrapPh n)[k]? = some '}') : k = n.length + 2 ∨ k = n.length + 3 := by
  match k with
  | 0 =>
    rw [wrapPh_getElem_zero] at h
    exact absurd h (by decide)
  | 1 =>
    rw [wrapPh_getElem_one] at h
    exact absurd h (by decide)
  | k + 2 =>
    rw [show wrapPh n = '{' :: '{' :: (n ++ ('}' :: '}' :: [])) from rfl,
      show k + 2 = k + 1 + 1 from rfl, List.getElem?_cons_succ,
      List.getElem?_cons_succ, List.getElem?_append] at h
    split at h
    · exfalso
      have hmem : '}' ∈ n := by
        rw [List.getElem?_eq_some] at h
        obtain ⟨w, hw⟩ := h
        exact hw ▸ List.getElem_mem w
      exact ((hn '}' hmem).2 rfl).elim
    · rename_i hk
      match hmk : k - n.length with
      | 0 => omega
      | 1 => omega
      | j + 2 =>
        exfalso
        rw [hmk, List.getElem?_eq_none (by simp)] at h
        exact Option.noConfusion h

/-- Wrapping placeholder names is injective. -/
theorem wrapPh_inj {a b : List Char} (h : wrapPh a = wrapPh b) : a = b := by
  simp only [wrapPh, List.cons.injEq, true_and] at h
  exact List.append_cancel_right h

/-- Auxiliary for `wrap_same_start`: the shorter of two placeholders matching
at the same position forces the names to be equal. -/
theorem wrap_same_start_aux {m n : List Char} (hm : braceFree m) (hn : braceFree n)
    {s : List Char} {i : ℕ} (h1 : matchesAt (wrapPh m) s i)
    (h2 : matchesAt (wrapPh n) s i) (hle : m.length ≤ n.length) : m = n := by
  rcases Nat.lt_or_ge m.length n.length with hlt | hge
  · exfalso
    have e1 : s[i + (m.length + 2)]? = (wrapPh m)[m.length + 2]? :=
      matchesAt_getElem h1 (by rw [wrapPh_length]; omega)
    have e2 : s[i + (m.length + 2)]? = (wrapPh n)[m.length + 2]? :=
      matchesAt_getElem h2 (by rw [wrapPh_length]; omega)
    have e3 : (wrapPh n)[m.length + 2]? = some '}' := by
      rw [← e2, e1, wrapPh_getElem_close]
    rcases wrapPh_close_pos hn e3 with h | h <;> omega
  · have hlen : m.length = n.length := by omega
    have hext : wrapPh m = wrapPh n := by
      apply List.ext_getElem?
      intro k
      rcases Nat.lt_or_ge k (wrapPh m).length with hk | hk
      · rw [← matchesAt_getElem h1 hk, ← matchesAt_getElem h2 (by
          rw [wrapPh_length] at hk ⊢; omega)]
      · rw [List.getElem?_eq_none hk, List.getElem?_eq_none (by
          rw [wrapPh_length] at hk ⊢; omega)]
    exact wrapPh_inj hext

/-- Two placeholder occurrences starting at the same index have the same
name. -/
theorem wrap_same_start {m n : List Char} (hm : braceFree m) (hn : braceFree n)
    {s : List Char} {i : ℕ} (h1 : matchesAt (wrapPh m) s i)
    (h2 : matchesAt (wrapPh n) s i) : m = n := by
  rcases Nat.le_total m.length n.length with hle | hle
  · exact wrap_same_start_aux hm hn h1 h2 hle
  · exact (wrap_same_start_aux hn hm h2 h1 hle).symm

/-- A placeholder occurrence cannot begin strictly inside another one. -/
theorem wrap_no_overlap_lt {m n : List Char} (hm : braceFree m) (hn : braceFree n)
    {s : List Char} {i j : ℕ} (h1 : matchesAt (wrapPh m) s i)
    (h2 : matchesAt (wrapPh n) s j) (hij : i < j)
    (hover : j < i + (wrapPh m).length) : False := by
  have hwm := wrapPh_length m
  have hwn := wrapPh_length n
  have e1 : s[j + 0]? = (wrapPh n)[0]? := matchesAt_getElem h2 (by omega)
  have e2 : s[i + (j - i)]? = (wrapPh m)[j - i]? := matchesAt_getElem h1 (by omega)
  have ed : (wrapPh m)[j - i]? = some '{' := by
    rw [← e2, show i + (j - i) = j + 0 by omega, e1, wrapPh_getElem_zero]
  have hd1 : j - i = 1 := by
    rcases wrapPh_open_pos hm ed with h | h <;> omega
  have e3 : s[j + 1]? = (wrapPh n)[1]? := matchesAt_getElem h2 (by omega)
  have e4 : s[i + 2]? = (wrapPh m)[2]? := matchesAt_getElem h1 (by omega)
  have ed2 : (wrapPh m)[2]? = some '{' := by
    rw [← e4, show i + 2 = j + 1 by omega, e3, wrapPh_getElem_one]
  rcases wrapPh_open_pos hm ed2 with h | h <;> omega

/-- Two placeholder occurrences whose character ranges intersect start at the
same index and carry the same name. -/
theorem wrap_overlap {m n : List Char} (hm : braceFree m) (hn : braceFree n)
    {s : List Char} {i j : ℕ} (h1 : matchesAt (wrapPh m) s i)
    (h2 : matchesAt (wrapPh n) s j) (ho1 : i < j + (wrapPh n).length)
    (ho2 : j < i + (wrapPh m).length) : i = j ∧ m = n := by
  rcases Nat.lt_trichotomy i j with hlt | heq | hgt
  · exact (wrap_no_overlap_lt hm hn h1 h2 hlt ho2).elim
  · subst heq
    exact ⟨rfl, wrap_same_start hm hn h1 h2⟩
  · exact (wrap_no_overlap_lt hn hm h2 h1 hgt ho1).elim

/-- An occurrence lying entirely before the replaced region survives the
replacement at its original index. -/
theorem matchesAt_replace_left {p q s v : List Char} {i j : ℕ}
    (hp : p ≠ []) (hq0 : q ≠ []) (hi : matchesAt p s i) (hq : matchesAt q s j)
    (hj : j + q.length ≤ i) :
    matchesAt q (s.take i ++ v ++ s.drop (i + p.length)) j := by
  have hilen : i + p.length ≤ s.length := matchesAt_le_length hp hi
  have hq1 : 0 < q.length := List.length_pos.mpr hq0
  have hA : (s.take i).length = i := by
    rw [List.length_take]; omega
  have hd : (s.take i ++ v ++ s.drop (i + p.length)).drop j
      = ((s.take i).drop j ++ v) ++ s.drop (i + p.length) := by
    rw [List.drop_append_eq_append_drop, List.drop_append_eq_append_drop,
      show j - (s.take i ++ v).length = 0 by
        rw [List.length_append, hA]; omega,
      List.drop_zero, hA, show j - i = 0 by omega, List.drop_zero]
  have hAd : ((s.take i).drop j).length = i - j := by
    rw [List.length_drop, hA]
  have ht : (((s.take i).drop j ++ v) ++ s.drop (i + p.length)).take q.length
      = ((s.take i).drop j).take q.length := by
    rw [List.take_append_eq_append_take, List.take_append_eq_append_take,
      show q.length - ((s.take i).drop j).length = 0 by rw [hAd]; omega,
      List.take_zero, List.append_nil,
      show q.length - ((s.take i).drop j ++ v).length = 0 by
        rw [List.length_append, hAd]; omega,
      List.take_zero, List.append_nil]
  unfold matchesAt
  rw [hd, ht, List.drop_take, List.take_take, Nat.min_eq_left (by omega)]
  exact hq

/-- An occurrence lying entirely after the replaced region survives the
replacement, shifted by the difference between the pattern and the
replacement lengths. -/
theorem matchesAt_replace_right {p q s v : List Char} {i j : ℕ}
    (hp : p ≠ []) (hi : matchesAt p s i) (hq : matchesAt q s j)
    (hj : i + p.length ≤ j) :
    matchesAt q (s.take i ++ v ++ s.drop (i + p.length))
      (i + v.length + (j - (i + p.length))) := by
  have hilen : i + p.length ≤ s.length := matchesAt_le_length hp hi
  have hA : (s.take i).length = i := by
    rw [List.length_take]; omega
  have hd : (s.take i ++ v ++ s.drop (i + p.length)).drop
        (i + v.length + (j - (i + p.length)))
      = s.drop j := by
    rw [List.drop_append_eq_append_drop,
      List.drop_eq_nil_of_le (by
        rw [List.length_append, hA]; omega),
      List.nil_append,
      show i + v.length + (j - (i + p.length)) - (s.take i ++ v).length
          = j - (i + p.length) by rw [List.length_append, hA]; omega,
      List.drop_drop,
      show i + p.length + (j - (i + p.length)) = j by omega]
  unfold matchesAt
  rw [hd]
  exact hq

/-- Core preservation property of the first-occurrence replacement: replacing
one placeholder loses at most that single occurrence of its own pattern and
no occurrence of any other (brace-free) placeholder, whatever string is
inserted. -/
theorem countOcc_replaceFirst_ge (m n : List Char) (hm : braceFree m) (hn : braceFree n)
    (s v : List Char) :
    (if wrapPh n = wrapPh m then countOcc (wrapPh n) s - 1 else countOcc (wrapPh n) s)
      ≤ countOcc (wrapPh n) (jsReplaceFirst s (wrapPh m) v) := by
  rcases hidx : indexOfSub (wrapPh m) s with _ | i
  · simp only [jsReplaceFirst, hidx]
    split <;> omega
  · have hidx2 : (List.range (s.length + 1)).find?
        (fun j => decide (matchesAt (wrapPh m) s j)) = some i := hidx
    have hfind := List.find?_some hidx2
    have him : matchesAt (wrapPh m) s i := of_decide_eq_true hfind
    have hilen : i + (wrapPh m).length ≤ s.length :=
      matchesAt_le_length (wrapPh_ne_nil m) him
    have hwm := wrapPh_length m
    have hwn := wrapPh_length n
    simp only [jsReplaceFirst, hidx]
    have key : ∀ T : Finset ℕ,
        (∀ j ∈ T, matchesAt (wrapPh n) s j) →
        (∀ j ∈ T, j + (wrapPh n).length ≤ i ∨ i + (wrapPh m).length ≤ j) →
        T.card ≤ countOcc (wrapPh n) (s.take i ++ v ++ s.drop (i + (wrapPh m).length)) := by
      intro T hTocc hTclass
      rw [countOcc]
      apply Finset.card_le_card_of_injOn
        (fun j => if j + (wrapPh n).length ≤ i then j
          else i + v.length + (j - (i + (wrapPh m).length)))
      · intro j hj
        have hocc := hTocc j hj
        rw [Finset.mem_filter, Finset.mem_range]
        rcases hTclass j hj with hle | hge
        · rw [if_pos hle]
          have hres := matchesAt_replace_left (v := v) (wrapPh_ne_nil m)
            (wrapPh_ne_nil n) him hocc hle
          have := matchesAt_le_length (wrapPh_ne_nil n) hres
          exact ⟨by omega, hres⟩
        · rw [if_neg (by omega)]
          have hres := matchesAt_replace_right (v := v) (wrapPh_ne_nil m) him hocc hge
          have := matchesAt_le_length (wrapPh_ne_nil n) hres
          exact ⟨by omega, hres⟩
      · intro j1 hj1 j2 hj2 hf
        have hj1T : j1 ∈ T := hj1
        have hj2T : j2 ∈ T := hj2
        simp only at hf
        rcases hTclass j1 hj1T with c1 | c1 <;> rcases hTclass j2 hj2T with c2 | c2
        · rw [if_pos c1, if_pos c2] at hf; exact hf
        · rw [if_pos c1, if_neg (by omega)] at hf; omega
        · rw [if_neg (by omega), if_pos c2] at hf; omega
        · rw [if_neg (by omega), if_neg (by omega)] at hf; omega
    by_cases heq : wrapPh n = wrapPh m
    · rw [if_pos heq]
      have hiS : i ∈ (Finset.range (s.length + 1)).filter
          (fun j => matchesAt (wrapPh n) s j) := by
        rw [Finset.mem_filter, Finset.mem_range]
        exact ⟨by omega, heq ▸ him⟩
      have hsub := key (((Finset.range (s.length + 1)).filter
          (fun j => matchesAt (wrapPh n) s j)).erase i)
        (fun j hj => (Finset.mem_filter.mp (Finset.mem_of_mem_erase hj)).2)
        (by
          intro j hj
          have hni := (Finset.mem_erase.mp hj).1
          have hocc := (Finset.mem_filter.mp (Finset.mem_of_mem_erase hj)).2
          by_contra hcon
          push_neg at hcon
          obtain ⟨ho1, ho2⟩ := hcon
          have := wrap_overlap hm hn him hocc (by omega) (by omega)
          exact hni this.1.symm)
      rw [countOcc, ← Finset.card_erase_of_mem hiS]
      exact hsub
    · rw [if_neg heq]
      have hsub := key ((Finset.range (s.length + 1)).filter
          (fun j => matchesAt (wrapPh n) s j))
        (fun j hj => (Finset.mem_filter.mp hj).2)
        (by
          intro j hj
          have hocc := (Finset.mem_filter.mp hj).2
          by_contra hcon
          push_neg at hcon
          obtain ⟨ho1, ho2⟩ := hcon
          have := wrap_overlap hm hn him hocc (by omega) (by omega)
          exact heq (by rw [this.2]))
      rw [countOcc]
      exact hsub

/-- Claim C10.  The custom-template substitution replaces only the first
occurrence of each recognised placeholder: for every template and every
brace-free placeholder name, the built prompt retains all but at most one
occurrence of a recognised placeholder (so a template containing it more
than once keeps every occurrence after the first), and retains every
occurrence of an unrecognised placeholder. -/
theorem claim_C10 (template vmssName resourceGroup metricsData currentCapacity
    minInstances maxInstances n : List Char) (hn : braceFree n) :
    (wrapPh n ∈ recognizedPlaceholders →
      countOcc (wrapPh n) template - 1
        ≤ countOcc (wrapPh n) (constructOllamaPromptCustom template vmssName
            resourceGroup metricsData currentCapacity minInstances maxInstances))
    ∧ (wrapPh n ∉ recognizedPlaceholders →
      countOcc (wrapPh n) template
        ≤ countOcc (wrapPh n) (constructOllamaPromptCustom template vmssName
            resourceGroup metricsData currentCapacity minInstances maxInstances)) := by
  have step : ∀ (mm : List Char), braceFree mm → ∀ s v : List Char,
      (if wrapPh n = wrapPh mm then countOcc (wrapPh n) s - 1 else countOcc (wrapPh n) s)
        ≤ countOcc (wrapPh n) (jsReplaceFirst s (wrapPh mm) v) :=
    fun mm hmm s v => countOcc_replaceFirst_ge mm n hmm hn s v
  have h1 := step phVmssName (by decide) template vmssName
  have h2 := step phResourceGroup (by decide)
    (jsReplaceFirst template (wrapPh phVmssName) vmssName) resourceGroup
  have h3 := step phMetricsData (by decide)
    (jsReplaceFirst (jsReplaceFirst template (wrapPh phVmssName) vmssName)
      (wrapPh phResourceGroup) resourceGroup) metricsData
  have h4 := step phCurrentCapacity (by decide)
    (jsReplaceFirst (jsReplaceFirst (jsReplaceFirst template
        (wrapPh phVmssName) vmssName)
      (wrapPh phResourceGroup) resourceGroup)
      (wrapPh phMetricsData) metricsData) currentCapacity
  have h5 := step phMinInstances (by decide)
    (jsReplaceFirst (jsReplaceFirst (jsReplaceFirst (jsReplaceFirst template
        (wrapPh phVmssName) vmssName)
      (wrapPh phResourceGroup) resourceGroup)
      (wrapPh phMetricsData) metricsData)
      (wrapPh phCurrentCapacity) currentCapacity) minInstances
  have h6 := step phMaxInstances (by decide)
    (jsReplaceFirst (jsReplaceFirst (jsReplaceFirst (jsReplaceFirst (jsReplaceFirst
        template (wrapPh phVmssName) vmssName)
      (wrapPh phResourceGroup) resourceGroup)
      (wrapPh phMetricsData) metricsData)
      (wrapPh phCurrentCapacity) currentCapacity)
      (wrapPh phMinInstances) minInstances) maxInstances
  constructor
  · intro hmem
    simp only [recognizedPlaceholders, recognizedNames, List.map_cons, List.map_nil,
      List.mem_cons, List.not_mem_nil, or_false] at hmem
    simp only [constructOllamaPromptCustom]
    rcases hmem with h | h | h | h | h | h
    · obtain rfl := wrapPh_inj h
      rw [if_pos rfl] at h1
      rw [if_neg (by decide)] at h2
      rw [if_neg (by decide)] at h3
      rw [if_neg (by decide)] at h4
      rw [if_neg (by decide)] at h5
      rw [if_neg (by decide)] at h6
      omega
    · obtain rfl := wrapPh_inj h
      rw [if_neg (by decide)] at h1
      rw [if_pos rfl] at h2
      rw [if_neg (by decide)] at h3
      rw [if_neg (by decide)] at h4
      rw [if_neg (by decide)] at h5
      rw [if_neg (by decide)] at h6
      omega
    · obtain rfl := wrapPh_inj h
      rw [if_neg (by decide)] at h1
      rw [if_neg (by decide)] at h2
      rw [if_pos rfl] at h3
      rw [if_neg (by decide)] at h4
      rw [if_neg (by decide)] at h5
      rw [if_neg (by decide)] at h6
      omega
    · obtain rfl := wrapPh_inj h
      rw [if_neg (by decide)] at h1
      rw [if_neg (by decide)] at h2
      rw [if_neg (by decide)] at h3
      rw [if_pos rfl] at h4
      rw [if_neg (by decide)] at h5
      rw [if_neg (by decide)] at h6
      omega
    · obtain rfl := wrapPh_inj h
      rw [if_neg (by decide)] at h1
      rw [if_neg (by decide)] at h2
      rw [if_neg (by decide)] at h3
      rw [if_neg (by decide)] at h4
      rw [if_pos rfl] at h5
      rw [if_neg (by decide)] at h6
      omega
    · obtain rfl := wrapPh_inj h
      rw [if_neg (by decide)] at h1
      rw [if_neg (by decide)] at h2
      rw [if_neg (by decide)] at h3
      rw [if_neg (by decide)] at h4
      rw [if_neg (by decide)] at h5
      rw [if_pos rfl] at h6
      omega
  · intro hmem
    have hne : ∀ a ∈ recognizedNames, ¬ wrapPh n = wrapPh a := by
      intro a ha hcontra
      exact hmem (by
        rw [recognizedPlaceholders, List.mem_map]
        exact ⟨a, ha, hcontra.symm⟩)
    rw [if_neg (hne phVmssName (by simp [recognizedNames]))] at h1
    rw [if_neg (hne phResourceGroup (by simp [recognizedNames]))] at h2
    rw [if_neg (hne phMetricsData (by simp [recognizedNames]))] at h3
    rw [if_neg (hne phCurrentCapacity (by simp [recognizedNames]))] at h4
    rw [if_neg (hne phMinInstances (by simp [recognizedNames]))] at h5
    rw [if_neg (hne phMaxInstances (by simp [recognizedNames]))] at h6
    simp only [constructOllamaPromptCustom]
    omega

/-- Witness for claim C10 on a template repeating `{{vmss_name}}`. -/
theorem claim_C10_witness :
    braceFree phVmssName
    ∧ ((wrapPh phVmssName ∈ recognizedPlaceholders →
        countOcc (wrapPh phVmssName) (wrapPh phVmssName ++ wrapPh phVmssName) - 1
          ≤ countOcc (wrapPh phVmssName)
              (constructOllamaPromptCustom (wrapPh phVmssName ++ wrapPh phVmssName)
                "V".data "R".data "M".data "3".data "2".data "10".data))
      ∧ (wrapPh phVmssName ∉ recognizedPlaceholders →
        countOcc (wrapPh phVmssName) (wrapPh phVmssName ++ wrapPh phVmssName)
          ≤ countOcc (wrapPh phVmssName)
              (constructOllamaPromptCustom (wrapPh phVmssName ++ wrapPh phVmssName)
                "V".data "R".data "M".data "3".data "2".data "10".data))) :=
  ⟨by decide,
    claim_C10 (wrapPh phVmssName ++ wrapPh phVmssName)
      "V".data "R".data "M".data "3".data "2".data "10".data phVmssName (by decide)⟩
